/-
Verification of the SUBS data extractor (`koku/subs/subs_data_extractor.py`).

Shallow embedding conventions:
* Timestamps (Python `datetime` values) are modelled as integers counting
  microseconds since an epoch; Python `timedelta(seconds=1)` is `usPerSecond`
  microseconds and `timedelta(days=1)` is `usPerDay` microseconds, matching
  `datetime` arithmetic on naive datetimes.
* `created.replace(microsecond=0, second=0, minute=0, hour=0)` truncates a
  datetime to the midnight of its calendar day; on the microsecond count this
  is flooring to a multiple of `usPerDay` (`floorToMidnight`, using floor
  division `Int.fdiv` as Python `//` does).
* Database and Trino state visible to one run is collected in `Env`:
  the stored `SubsLastProcessed` row for (provider, year, month), the
  provider's creation timestamp, the multiset of `lineitem_usagestartdate`
  values in the source table (the `MAX` query folds over it), the result of
  the count query, and for every page index whether its S3 upload raises one
  of the caught exceptions (`EndpointConnectionError`/`ClientError`).
* Each Python method becomes a pure function from its inputs (plus the
  relevant `Env` pieces) to its result; `extract_data_to_s3` returns a
  `RunResult` recording the returned `upload_keys` list, the (offset, limit)
  parameters of every page queried, which local CSV files were removed, and
  the `SubsLastProcessed` row as stored by `update_latest_processed_time`.
-/
import Mathlib

namespace Subs

/-- `timedelta(seconds=1)` in microseconds. -/
def usPerSecond : Int := 1000000

/-- `timedelta(days=1)` in microseconds. -/
def usPerDay : Int := 86400 * usPerSecond

/-- `t.replace(microsecond=0, second=0, minute=0, hour=0)`: the midnight of
`t`'s calendar day, i.e. `t` floored to a multiple of `usPerDay`. -/
def floorToMidnight (t : Int) : Int :=
  (Int.fdiv t usPerDay) * usPerDay

/-- One row of the `SubsLastProcessed` model for a fixed
(source_uuid, year, month) key; `latest_processed_time` is a nullable
datetime column. -/
structure SubsLastProcessed where
  latest_processed_time : Option Int
deriving DecidableEq, Repr

/-- `SUBSDataExtractor.determine_latest_processed_time_for_provider`:
fetch the first `SubsLastProcessed` row for the key (`row`, `none` when no
row exists); when the row exists and its `latest_processed_time` is non-null,
return it plus one second, else return `None`. -/
def determine_latest_processed_time_for_provider
    (row : Option SubsLastProcessed) : Option Int :=
  match row with
  | some last_time =>
    match last_time.latest_processed_time with
    | some t => some (t + usPerSecond)
    | none => none
  | none => none

/-- SQL `MAX` over the `lineitem_usagestartdate` column of the rows the
`determine_end_time` query selects: `NULL` (`none`) on an empty table,
otherwise the greatest value. -/
def sqlMax : List Int → Option Int
  | [] => none
  | x :: xs => some (xs.foldl max x)

/-- `SUBSDataExtractor.determine_end_time`: the scalar result of
`SELECT MAX(lineitem_usagestartdate) ... ` over the source-table rows for
the (provider, year, month) key. -/
def determine_end_time (table : List Int) : Option Int :=
  sqlMax table

/-- `SUBSDataExtractor.determine_start_time`:
`base_time = determine_latest_processed_time_for_provider(...) or month_start`;
if `base_time < created` return
`created.replace(microsecond=0, second=0, minute=0, hour=0) - timedelta(days=1)`,
else return `base_time`. -/
def determine_start_time (row : Option SubsLastProcessed)
    (month_start created : Int) : Int :=
  let base_time := (determine_latest_processed_time_for_provider row).getD month_start
  if base_time < created then floorToMidnight created - usPerDay
  else base_time

/-- `SUBSDataExtractor.update_latest_processed_time`: `get_or_create` the
`SubsLastProcessed` row for the key (a fresh row has a null
`latest_processed_time`), then overwrite `latest_processed_time` with
`end_time` unconditionally and save. Returns the row as stored. -/
def update_latest_processed_time (row : Option SubsLastProcessed)
    (end_time : Option Int) : SubsLastProcessed :=
  let subs_obj := row.getD { latest_processed_time := none }
  { subs_obj with latest_processed_time := end_time }

/-- Result of one `copy_data_to_subs_s3_bucket` call: the value returned to
the page loop (`None` on a caught upload failure) and whether the local CSV
file was removed before returning. -/
structure CopyResult where
  upload_key : Option String
  file_removed : Bool
deriving DecidableEq, Repr

/-- `SUBSDataExtractor.copy_data_to_subs_s3_bucket`: serialize the page to a
local CSV file and upload it. `upload_ok` is true when `upload_fileobj` does
not raise `EndpointConnectionError`/`ClientError`. On such an exception the
function logs and `return`s from inside the `with` block, so `os.remove` is
never reached and it returns `None`; on success it removes the file and
returns the object key. -/
def copy_data_to_subs_s3_bucket (upload_ok : Bool) (key : String) : CopyResult :=
  if upload_ok then { upload_key := some key, file_removed := true }
  else { upload_key := none, file_removed := false }

/-- Python `range(start, stop, step)` for `step ≥ 1`, iterated with an
explicit counter: `stop - start` bounds the number of iterations because
each iteration advances `start` by `step ≥ 1`. -/
def rangeStepGo (step : Nat) : Nat → Nat → Nat → List Nat
  | 0, _, _ => []
  | fuel + 1, start, stop =>
    if start < stop then start :: rangeStepGo step fuel (start + step) stop
    else []

/-- Python `range(start, stop, step)` (positive `step`). -/
def rangeStep (start stop step : Nat) : List Nat :=
  rangeStepGo step (stop - start) start stop

/-- Environment seen by one `extract_data_to_s3` run. -/
structure Env where
  /-- `settings.PARQUET_PROCESSING_BATCH_SIZE`. -/
  batch_size : Nat
  /-- `self.tracing_id`. -/
  tracing_id : String
  /-- `self.subs_s3_path`. -/
  s3_path : String
  /-- The stored `SubsLastProcessed` row for (provider, year, month). -/
  row : Option SubsLastProcessed
  /-- `Provider.objects.get(uuid=...).created_timestamp`. -/
  created : Int
  /-- `lineitem_usagestartdate` of the source-table rows for the key. -/
  table : List Int
  /-- Result of the `determine_line_item_count` count query. -/
  total_count : Nat
  /-- Whether page `i`'s S3 upload succeeds (no caught exception). -/
  uploadOk : Nat → Bool

/-- The local CSV filename of page `i`: `f"subs_{tracing_id}_{i}.csv"`. -/
def pageFilename (e : Env) (i : Nat) : String :=
  "subs_" ++ e.tracing_id ++ "_" ++ toString i ++ ".csv"

/-- The S3 object key of page `i`: `f"{subs_s3_path}/{filename}"`. -/
def pageUploadKey (e : Env) (i : Nat) : String :=
  e.s3_path ++ "/" ++ pageFilename e i

/-- Observable outcome of one `extract_data_to_s3` run. -/
structure RunResult where
  /-- The `upload_keys` list the method returns; the loop appends the result
  of every `copy_data_to_subs_s3_bucket` call, which is `None` on a failed
  upload. -/
  upload_keys : List (Option String)
  /-- The `(offset, limit)` sql parameters of each page query, in loop
  order. -/
  page_params : List (Nat × Nat)
  /-- For each page, whether its local CSV file was removed. -/
  files_removed : List Bool
  /-- The resolved `start_time`. -/
  start_time : Int
  /-- The `SubsLastProcessed` row as stored by the unconditional
  `update_latest_processed_time` call after the loop. -/
  stored : SubsLastProcessed
deriving Repr

/-- `SUBSDataExtractor.extract_data_to_s3(month_start)`: resolve
`start_time` and `end_time`, count matching records, loop over
`enumerate(range(0, total_count, PARQUET_PROCESSING_BATCH_SIZE))` calling
`copy_data_to_subs_s3_bucket` for each page and appending its result to
`upload_keys`, then call `update_latest_processed_time(year, month,
end_time)` and return `upload_keys`. -/
def extract_data_to_s3 (e : Env) (month_start : Int) : RunResult :=
  let start_time := determine_start_time e.row month_start e.created
  let end_time := determine_end_time e.table
  let offsets := rangeStep 0 e.total_count e.batch_size
  let pages := offsets.enum.map fun p =>
    copy_data_to_subs_s3_bucket (e.uploadOk p.1) (pageUploadKey e p.1)
  { upload_keys := pages.map CopyResult.upload_key
    page_params := offsets.map fun o => (o, e.batch_size)
    files_removed := pages.map CopyResult.file_removed
    start_time := start_time
    stored := update_latest_processed_time e.row end_time }

/-- Ordering on stored watermark values: a null (`none`) watermark is below
everything; `some` values compare by timestamp. "Non-decreasing" in the
monotonicity claim means successive stored values are related by this. -/
def watermarkLe (a b : Option Int) : Bool :=
  match a, b with
  | none, _ => true
  | some _, none => false
  | some x, some y => decide (x ≤ y)

/-! ### Concrete test environments -/

/-- A run with two pages (`total_count = 2`, batch size 1) in which page 0's
upload raises a caught exception and page 1's upload succeeds. -/
def pageFailEnv : Env where
  batch_size := 1
  tracing_id := "t"
  s3_path := "p"
  row := some { latest_processed_time := some 5 }
  created := 0
  table := [7, 6]
  total_count := 2
  uploadOk := fun i => decide (i = 1)

/-- A run whose source table holds no rows for the key: the `MAX` query
returns `NULL`, so no end time exists; a previous run had stored watermark
`5`. -/
def emptyTableEnv : Env where
  batch_size := 100
  tracing_id := "t"
  s3_path := "p"
  row := some { latest_processed_time := some 5 }
  created := 0
  table := []
  total_count := 0
  uploadOk := fun _ => true

/-- A run whose count query matches no records (`total_count = 0`) while the
source table still has a row at `7`; a previous run had stored watermark
`5`. -/
def zeroCountEnv : Env where
  batch_size := 100
  tracing_id := "t"
  s3_path := "p"
  row := some { latest_processed_time := some 5 }
  created := 0
  table := [7]
  total_count := 0
  uploadOk := fun _ => true

/-- A sequence of run environments over a growing (append-only) source
table: run `n` sees usage timestamps `0, 1, ..., n - 1`. -/
def growingEnv : Nat → Env := fun n =>
  { batch_size := 1
    tracing_id := "t"
    s3_path := "p"
    row := some { latest_processed_time := none }
    created := 0
    table := (List.range n).map Int.ofNat
    total_count := 0
    uploadOk := fun _ => true }

/-- A two-run sequence for the same key whose source table LOSES its rows
between runs (as after data expiry or deletion): run 0 sees one row at `5`,
run 1 sees an empty table. -/
def shrinkingEnv : Nat → Env := fun n =>
  { batch_size := 1
    tracing_id := "t"
    s3_path := "p"
    row := some { latest_processed_time := none }
    created := 0
    table := if n = 0 then [5] else []
    total_count := 0
    uploadOk := fun _ => true }

/-! ### Helper lemmas about `rangeStep` (Python `range(start, stop, step)`) -/

lemma rangeStepGo_eq (step : Nat) (hs : 0 < step) :
    ∀ fuel start stop, stop - start ≤ fuel →
      rangeStepGo step fuel start stop =
        (List.range ((stop - start + step - 1) / step)).map fun i => start + i * step := by
  intro fuel
  induction fuel with
  | zero =>
    intro start stop h
    have hle : stop ≤ start := by omega
    have h0 : stop - start = 0 := by omega
    have hdiv : (stop - start + step - 1) / step = 0 := by
      rw [h0]
      exact Nat.div_eq_of_lt (by omega)
    rw [hdiv]
    rfl
  | succ fuel ih =>
    intro start stop h
    by_cases hlt : start < stop
    · have hd : 1 ≤ stop - start := by omega
      have hK : (stop - start + step - 1) / step = (stop - start - 1) / step + 1 := by
        have h1 : stop - start + step - 1 = (stop - start - 1) + step := by omega
        rw [h1, Nat.add_div_right _ hs]
      have hK' : (stop - (start + step) + step - 1) / step = (stop - start - 1) / step := by
        rcases le_or_lt step (stop - start) with hc | hc
        · have h2 : stop - (start + step) + step - 1 = stop - start - 1 := by omega
          rw [h2]
        · have h2 : stop - (start + step) = 0 := by omega
          rw [h2, Nat.zero_add]
          have h3 : (step - 1) / step = 0 := Nat.div_eq_of_lt (by omega)
          have h4 : (stop - start - 1) / step = 0 := Nat.div_eq_of_lt (by omega)
          rw [h3, h4]
      have hrec : rangeStepGo step (fuel + 1) start stop =
          start :: rangeStepGo step fuel (start + step) stop := by
        simp [rangeStepGo, hlt]
      rw [hrec, ih (start + step) stop (by omega), hK, hK',
        List.range_succ_eq_map, List.map_cons, List.map_map]
      refine List.cons_eq_cons.mpr ⟨by simp, ?_⟩
      apply List.map_congr_left
      intro i _
      simp only [Function.comp_apply, Nat.succ_eq_add_one]
      ring
    · have h0 : stop - start = 0 := by omega
      have hdiv : (stop - start + step - 1) / step = 0 := by
        rw [h0]
        exact Nat.div_eq_of_lt (by omega)
      rw [hdiv]
      simp [rangeStepGo, hlt]

lemma rangeStep_eq (start stop step : Nat) (hs : 0 < step) :
    rangeStep start stop step =
      (List.range ((stop - start + step - 1) / step)).map fun i => start + i * step :=
  rangeStepGo_eq step hs (stop - start) start stop le_rfl

lemma rangeStep_zero_eq (stop step : Nat) (hs : 0 < step) :
    rangeStep 0 stop step = (List.range ((stop + step - 1) / step)).map fun i => i * step := by
  rw [rangeStep_eq 0 stop step hs]
  simp

lemma rangeStep_length (stop step : Nat) (hs : 0 < step) :
    (rangeStep 0 stop step).length = (stop + step - 1) / step := by
  rw [rangeStep_zero_eq stop step hs, List.length_map, List.length_range]

lemma mem_rangeStepGo_bounds (step : Nat) :
    ∀ fuel start stop o, o ∈ rangeStepGo step fuel start stop → start ≤ o ∧ o < stop := by
  intro fuel
  induction fuel with
  | zero => intro start stop o h; simp [rangeStepGo] at h
  | succ fuel ih =>
    intro start stop o h
    by_cases hlt : start < stop
    · simp only [rangeStepGo, if_pos hlt, List.mem_cons] at h
      rcases h with h | h
      · omega
      · have := ih (start + step) stop o h
        omega
    · simp [rangeStepGo, hlt] at h

lemma mem_rangeStep_lt (stop step o : Nat) (h : o ∈ rangeStep 0 stop step) : o < stop :=
  (mem_rangeStepGo_bounds step (stop - 0) 0 stop o h).2

/-! ### Helper lemmas about `sqlMax` -/

lemma le_foldl_max (l : List Int) (a : Int) : a ≤ l.foldl max a := by
  induction l generalizing a with
  | nil => exact le_rfl
  | cons x xs ih => exact le_trans (le_max_left a x) (ih (max a x))

lemma foldl_max_le_of_mem (l : List Int) (a x : Int) (h : x ∈ l) :
    x ≤ l.foldl max a := by
  induction l generalizing a with
  | nil => simp at h
  | cons y ys ih =>
    rcases List.mem_cons.mp h with rfl | h
    · exact le_trans (le_max_right a x) (le_foldl_max ys (max a x))
    · exact ih (max a y) h

lemma foldl_max_mem (l : List Int) (a : Int) :
    l.foldl max a = a ∨ l.foldl max a ∈ l := by
  induction l generalizing a with
  | nil => exact Or.inl rfl
  | cons x xs ih =>
    rcases ih (max a x) with h | h
    · rcases max_cases a x with ⟨hm, _⟩ | ⟨hm, _⟩
      · exact Or.inl (by rw [List.foldl_cons, h, hm])
      · exact Or.inr (by rw [List.foldl_cons, h, hm]; exact List.mem_cons_self x xs)
    · exact Or.inr (List.mem_cons_of_mem x h)

lemma sqlMax_mem (l : List Int) (m : Int) (h : sqlMax l = some m) : m ∈ l := by
  cases l with
  | nil => simp [sqlMax] at h
  | cons x xs =>
    simp only [sqlMax, Option.some.injEq] at h
    rcases foldl_max_mem xs x with h' | h'
    · rw [← h, h']; exact List.mem_cons_self x xs
    · rw [← h]; exact List.mem_cons_of_mem x h'

lemma le_sqlMax_of_mem (l : List Int) (x : Int) (h : x ∈ l) :
    ∃ m, sqlMax l = some m ∧ x ≤ m := by
  cases l with
  | nil => simp at h
  | cons y ys =>
    refine ⟨ys.foldl max y, rfl, ?_⟩
    rcases List.mem_cons.mp h with rfl | h
    · exact le_foldl_max ys x
    · exact foldl_max_le_of_mem ys y x h

lemma sqlMax_mono (l₁ l₂ : List Int) (h : l₁ ⊆ l₂) :
    watermarkLe (sqlMax l₁) (sqlMax l₂) = true := by
  cases h1 : sqlMax l₁ with
  | none => rfl
  | some m =>
    have hm : m ∈ l₂ := h (sqlMax_mem l₁ m h1)
    obtain ⟨m₂, h2, hle⟩ := le_sqlMax_of_mem l₂ m hm
    rw [h2]
    simpa [watermarkLe] using hle

/-! ### Helper lemmas about the page loop of `extract_data_to_s3` -/

lemma enum_map_fst_comp {α β : Type} (l : List α) (g : Nat → β) :
    (l.enum.map fun p => g p.1) = (List.range l.length).map g := by
  calc (l.enum.map fun p => g p.1) = (l.enum.map Prod.fst).map g := by
        rw [List.map_map]; rfl
    _ = (List.range l.length).map g := by rw [List.enum_map_fst]

lemma copy_upload_key (ok : Bool) (k : String) :
    (copy_data_to_subs_s3_bucket ok k).upload_key = if ok then some k else none := by
  cases ok <;> rfl

lemma copy_file_removed (ok : Bool) (k : String) :
    (copy_data_to_subs_s3_bucket ok k).file_removed = ok := by
  cases ok <;> rfl

/-- Number of pages of a run: `ceil(total_count / batch_size)` written with
natural division. -/
def pageCount (e : Env) : Nat :=
  (e.total_count + e.batch_size - 1) / e.batch_size

lemma extract_page_params (e : Env) (ms : Int) (hP : 0 < e.batch_size) :
    (extract_data_to_s3 e ms).page_params
      = (List.range (pageCount e)).map fun i => (i * e.batch_size, e.batch_size) := by
  show (rangeStep 0 e.total_count e.batch_size).map _ = _
  rw [rangeStep_zero_eq e.total_count e.batch_size hP, List.map_map]
  rfl

lemma extract_upload_keys (e : Env) (ms : Int) (hP : 0 < e.batch_size) :
    (extract_data_to_s3 e ms).upload_keys
      = (List.range (pageCount e)).map
          fun i => if e.uploadOk i then some (pageUploadKey e i) else none := by
  show ((rangeStep 0 e.total_count e.batch_size).enum.map _).map _ = _
  rw [List.map_map]
  have h1 : (((rangeStep 0 e.total_count e.batch_size).enum.map
      fun p => CopyResult.upload_key
        (copy_data_to_subs_s3_bucket (e.uploadOk p.1) (pageUploadKey e p.1))))
      = (List.range (rangeStep 0 e.total_count e.batch_size).length).map
          fun i => CopyResult.upload_key
            (copy_data_to_subs_s3_bucket (e.uploadOk i) (pageUploadKey e i)) :=
    enum_map_fst_comp (rangeStep 0 e.total_count e.batch_size)
      fun i => CopyResult.upload_key
        (copy_data_to_subs_s3_bucket (e.uploadOk i) (pageUploadKey e i))
  rw [show (CopyResult.upload_key ∘ fun p : Nat × Nat =>
      copy_data_to_subs_s3_bucket (e.uploadOk p.1) (pageUploadKey e p.1))
      = fun p : Nat × Nat => CopyResult.upload_key
        (copy_data_to_subs_s3_bucket (e.uploadOk p.1) (pageUploadKey e p.1)) from rfl,
    h1, rangeStep_length e.total_count e.batch_size hP]
  exact List.map_congr_left fun i _ => copy_upload_key _ _

lemma extract_files_removed (e : Env) (ms : Int) (hP : 0 < e.batch_size) :
    (extract_data_to_s3 e ms).files_removed
      = (List.range (pageCount e)).map fun i => e.uploadOk i := by
  show ((rangeStep 0 e.total_count e.batch_size).enum.map _).map _ = _
  rw [List.map_map]
  have h1 : (((rangeStep 0 e.total_count e.batch_size).enum.map
      fun p => CopyResult.file_removed
        (copy_data_to_subs_s3_bucket (e.uploadOk p.1) (pageUploadKey e p.1))))
      = (List.range (rangeStep 0 e.total_count e.batch_size).length).map
          fun i => CopyResult.file_removed
            (copy_data_to_subs_s3_bucket (e.uploadOk i) (pageUploadKey e i)) :=
    enum_map_fst_comp (rangeStep 0 e.total_count e.batch_size)
      fun i => CopyResult.file_removed
        (copy_data_to_subs_s3_bucket (e.uploadOk i) (pageUploadKey e i))
  rw [show (CopyResult.file_removed ∘ fun p : Nat × Nat =>
      copy_data_to_subs_s3_bucket (e.uploadOk p.1) (pageUploadKey e p.1))
      = fun p : Nat × Nat => CopyResult.file_removed
        (copy_data_to_subs_s3_bucket (e.uploadOk p.1) (pageUploadKey e p.1)) from rfl,
    h1, rangeStep_length e.total_count e.batch_size hP]
  exact List.map_congr_left fun i _ => copy_file_removed _ _

lemma extract_stored (e : Env) (ms : Int) :
    (extract_data_to_s3 e ms).stored
      = update_latest_processed_time e.row (determine_end_time e.table) := rfl

lemma extract_stored_time (e : Env) (ms : Int) :
    (extract_data_to_s3 e ms).stored.latest_processed_time
      = determine_end_time e.table := rfl

/-! ### Claim theorems -/

/-- C10: a `SubsLastProcessed` row whose `latest_processed_time` is null is
treated exactly like a missing row: `determine_latest_processed_time_for_provider`
returns `None`, and `determine_start_time` resolves the same start time as it
would with no row at all (the period start, then the creation clamp). -/
theorem null_watermark_treated_as_absent (month_start created : Int) :
    determine_latest_processed_time_for_provider
        (some { latest_processed_time := none }) = none ∧
    determine_start_time (some { latest_processed_time := none }) month_start created
      = determine_start_time none month_start created :=
  ⟨rfl, rfl⟩

/-- C8: whenever the naive start time (stored watermark plus one second, or
the period start when no usable watermark exists) precedes the provider's
creation timestamp, `determine_start_time` returns the midnight of the day
before creation: a multiple of `usPerDay` lying in the half-open day
interval ending one day before creation — regardless of how far before
creation the naive start time lies. -/
theorem creation_clamp (row : Option SubsLastProcessed)
    (month_start created : Int)
    (h : (determine_latest_processed_time_for_provider row).getD month_start < created) :
    determine_start_time row month_start created
        = floorToMidnight created - usPerDay ∧
    usPerDay ∣ (floorToMidnight created - usPerDay) ∧
    created - 2 * usPerDay < floorToMidnight created - usPerDay ∧
    floorToMidnight created - usPerDay ≤ created - usPerDay := by
  have heq : determine_start_time row month_start created
      = floorToMidnight created - usPerDay := by
    show (if (determine_latest_processed_time_for_provider row).getD month_start < created
          then floorToMidnight created - usPerDay
          else (determine_latest_processed_time_for_provider row).getD month_start)
        = floorToMidnight created - usPerDay
    rw [if_pos h]
  have hd : usPerDay = 86400000000 := by norm_num [usPerDay, usPerSecond]
  have hfd : Int.fdiv created usPerDay = created / usPerDay := by
    rw [hd]; exact Int.fdiv_eq_ediv created (by norm_num)
  refine ⟨heq, ⟨Int.fdiv created usPerDay - 1, by unfold floorToMidnight; ring⟩, ?_, ?_⟩
  · unfold floorToMidnight
    rw [hfd, hd]
    omega
  · unfold floorToMidnight
    rw [hfd, hd]
    omega

/-- Witness for C8 at `row = none`, `month_start = 0`,
`created = 3 * usPerDay + 5`: the naive start time `0` precedes creation and
the resolved start time is the midnight one day before creation,
`2 * usPerDay`. -/
theorem creation_clamp_witness :
    (determine_latest_processed_time_for_provider none).getD 0
        < 3 * usPerDay + 5 ∧
    (determine_start_time none 0 (3 * usPerDay + 5)
        = floorToMidnight (3 * usPerDay + 5) - usPerDay ∧
     usPerDay ∣ (floorToMidnight (3 * usPerDay + 5) - usPerDay) ∧
     3 * usPerDay + 5 - 2 * usPerDay < floorToMidnight (3 * usPerDay + 5) - usPerDay ∧
     floorToMidnight (3 * usPerDay + 5) - usPerDay ≤ 3 * usPerDay + 5 - usPerDay) :=
  ⟨by decide, creation_clamp none 0 (3 * usPerDay + 5) (by decide)⟩

/-- C7 (counterexample): with stored watermark
`T = 10 * usPerDay + 40000 * usPerSecond` and provider creation timestamp
`10 * usPerDay + 43200 * usPerSecond`, the naive start `T + 1s` precedes
creation, so the creation clamp fires and the resolved start time is
`9 * usPerDay` — strictly EARLIER than `T`, refuting "the resolved start
time equals T + 1 second, never T or earlier". -/
theorem half_open_resume_counterexample :
    determine_start_time
        (some { latest_processed_time := some (10 * usPerDay + 40000 * usPerSecond) })
        0 (10 * usPerDay + 43200 * usPerSecond)
      = 9 * usPerDay ∧
    9 * usPerDay < 10 * usPerDay + 40000 * usPerSecond :=
  ⟨by decide, by decide⟩

/-- C7 (amended): for every run with a stored watermark timestamp `T`, IF
`T + 1 second` does not precede the provider's creation timestamp, the
resolved start time equals `T + 1 second` — in particular strictly after
`T`. (When `T + 1 second` precedes creation, the creation clamp of C8 takes
over and may resolve a start before `T`.) -/
theorem half_open_resume_after_creation (t month_start created : Int)
    (h : created ≤ t + usPerSecond) :
    determine_start_time (some { latest_processed_time := some t }) month_start created
        = t + usPerSecond ∧
    t < determine_start_time (some { latest_processed_time := some t }) month_start created := by
  have hbase : determine_start_time (some { latest_processed_time := some t })
      month_start created = t + usPerSecond := by
    show (if t + usPerSecond < created then floorToMidnight created - usPerDay
          else t + usPerSecond) = t + usPerSecond
    rw [if_neg (not_lt.mpr h)]
  refine ⟨hbase, ?_⟩
  rw [hbase, show usPerSecond = 1000000 from rfl]
  norm_num

/-- Witness for the amended C7 at `t = 0`, `month_start = 0`,
`created = 0`: the resolved start time is exactly one second after the
stored watermark. -/
theorem half_open_resume_after_creation_witness :
    (0 : Int) ≤ 0 + usPerSecond ∧
    (determine_start_time (some { latest_processed_time := some 0 }) 0 0
        = 0 + usPerSecond ∧
     (0 : Int) < determine_start_time (some { latest_processed_time := some 0 }) 0 0) :=
  ⟨by decide, half_open_resume_after_creation 0 0 0 (by decide)⟩

/-- C5 (counterexample): when the upload raises a caught
`EndpointConnectionError`/`ClientError`, `copy_data_to_subs_s3_bucket`
returns from inside the `with` block before reaching `os.remove`, so the
local CSV file is NOT removed — refuting "removed on every exit path". -/
theorem file_cleanup_counterexample :
    (copy_data_to_subs_s3_bucket false "k").file_removed = false ∧
    (copy_data_to_subs_s3_bucket true "k").file_removed = true ∧
    (copy_data_to_subs_s3_bucket false "k").upload_key = none :=
  ⟨rfl, rfl, rfl⟩

/-- C5 (amended): `copy_data_to_subs_s3_bucket` removes the local serialized
CSV file exactly on the success path; on an upload failure with a
connectivity or client error it returns `None` early and leaves the file on
local storage. -/
theorem file_removed_only_on_success (ok : Bool) (k : String) :
    (copy_data_to_subs_s3_bucket ok k).file_removed = ok ∧
    (copy_data_to_subs_s3_bucket ok k).upload_key
      = if ok then some k else none := by
  cases ok <;> exact ⟨rfl, rfl⟩

/-- C9: for total matching-record count `N` and page size `P > 0`, the page
loop queries exactly the pages `(i * P, P)` for `i < ceil(N / P)` in that
order; every offset is strictly below `N`, every page is queried with limit
`P`, and `N = 0` generates no pages. -/
theorem pagination_completeness (e : Env) (ms : Int) (hP : 0 < e.batch_size) :
    (extract_data_to_s3 e ms).page_params
        = (List.range (pageCount e)).map (fun i => (i * e.batch_size, e.batch_size)) ∧
    (extract_data_to_s3 e ms).page_params.length = pageCount e ∧
    (∀ p ∈ (extract_data_to_s3 e ms).page_params,
        p.1 < e.total_count ∧ p.2 = e.batch_size) ∧
    (e.total_count = 0 → (extract_data_to_s3 e ms).page_params = []) := by
  have hpp : (extract_data_to_s3 e ms).page_params
      = (rangeStep 0 e.total_count e.batch_size).map fun o => (o, e.batch_size) := rfl
  refine ⟨extract_page_params e ms hP, ?_, ?_, ?_⟩
  · rw [extract_page_params e ms hP, List.length_map, List.length_range]
  · intro p hp
    rw [hpp] at hp
    obtain ⟨o, ho, rfl⟩ := List.mem_map.mp hp
    exact ⟨mem_rangeStep_lt e.total_count e.batch_size o ho, rfl⟩
  · intro h0
    rw [hpp, h0]
    rfl

/-- Witness for C9 at `pageFailEnv` (`N = 2`, `P = 1`): two pages at offsets
0 and 1, each with limit 1. -/
theorem pagination_completeness_witness :
    0 < pageFailEnv.batch_size ∧
    ((extract_data_to_s3 pageFailEnv 0).page_params
        = (List.range (pageCount pageFailEnv)).map
            (fun i => (i * pageFailEnv.batch_size, pageFailEnv.batch_size)) ∧
     (extract_data_to_s3 pageFailEnv 0).page_params.length = pageCount pageFailEnv ∧
     (∀ p ∈ (extract_data_to_s3 pageFailEnv 0).page_params,
         p.1 < pageFailEnv.total_count ∧ p.2 = pageFailEnv.batch_size) ∧
     (pageFailEnv.total_count = 0 →
         (extract_data_to_s3 pageFailEnv 0).page_params = [])) :=
  ⟨by decide, pagination_completeness pageFailEnv 0 (by decide)⟩

/-- C4 (counterexample): in a two-page run whose first upload fails, the
list `extract_data_to_s3` returns is `[None, key1]` — it has one element per
page (length equal to the page count, not shorter) and contains a `None`
entry for the failed page, refuting "the sequence contains exactly the
object keys of the successfully uploaded pages". -/
theorem upload_keys_counterexample :
    pageFailEnv.uploadOk 0 = false ∧
    (extract_data_to_s3 pageFailEnv 0).upload_keys
      = [none, some (pageUploadKey pageFailEnv 1)] ∧
    none ∈ (extract_data_to_s3 pageFailEnv 0).upload_keys ∧
    (extract_data_to_s3 pageFailEnv 0).upload_keys.length
      = (extract_data_to_s3 pageFailEnv 0).page_params.length :=
  ⟨rfl, rfl, by decide, rfl⟩

/-- C4 (amended): the returned sequence has exactly one element per page, in
page order: its length always equals the page count, and its `i`-th element
is the object key of page `i` when that page's upload succeeded and `None`
when it failed. -/
theorem upload_keys_one_per_page (e : Env) (ms : Int) (hP : 0 < e.batch_size)
    (i : Nat) (h : i < (extract_data_to_s3 e ms).upload_keys.length) :
    (extract_data_to_s3 e ms).upload_keys.length = pageCount e ∧
    (extract_data_to_s3 e ms).upload_keys.get ⟨i, h⟩
      = if e.uploadOk i then some (pageUploadKey e i) else none := by
  have hkeys := extract_upload_keys e ms hP
  have hlen : (extract_data_to_s3 e ms).upload_keys.length = pageCount e := by
    rw [hkeys, List.length_map, List.length_range]
  refine ⟨hlen, ?_⟩
  rw [List.get_eq_getElem]
  simp only [hkeys, List.getElem_map, List.getElem_range]

/-- Witness for the amended C4 at `pageFailEnv`, page 0 (whose upload
fails): the first returned element is `None`. -/
theorem upload_keys_one_per_page_witness :
    (extract_data_to_s3 pageFailEnv 0).upload_keys.length = pageCount pageFailEnv ∧
    (extract_data_to_s3 pageFailEnv 0).upload_keys.get ⟨0, by decide⟩
      = if pageFailEnv.uploadOk 0 then some (pageUploadKey pageFailEnv 0) else none :=
  upload_keys_one_per_page pageFailEnv 0 (by decide) 0 (by decide)

/-- C6: a caught upload failure on page `k` is non-fatal: the run still
queries every one of the `ceil(N / P)` pages exactly once in order
(`page_params` is the full page list), records one outcome per page
(`upload_keys` has one element per page, with `None` at the failed page
`k`), and after the loop the watermark is stored exactly once, as the run's
`end_time` (the `MAX` of the source table), regardless of the failure. -/
theorem partial_failure_nonblocking (e : Env) (ms : Int) (hP : 0 < e.batch_size)
    (k : Nat) (hk : k < pageCount e) (hfail : e.uploadOk k = false) :
    (extract_data_to_s3 e ms).page_params
        = (List.range (pageCount e)).map (fun i => (i * e.batch_size, e.batch_size)) ∧
    (extract_data_to_s3 e ms).upload_keys.length = pageCount e ∧
    (extract_data_to_s3 e ms).upload_keys[k]? = some none ∧
    (extract_data_to_s3 e ms).stored.latest_processed_time
      = determine_end_time e.table := by
  refine ⟨extract_page_params e ms hP, ?_, ?_, extract_stored_time e ms⟩
  · rw [extract_upload_keys e ms hP, List.length_map, List.length_range]
  · rw [extract_upload_keys e ms hP]
    rw [List.getElem?_map, List.getElem?_range hk]
    simp [hfail]

/-- Witness for C6 at `pageFailEnv`, failed page `k = 0` of 2: both pages
still queried, two recorded outcomes, watermark stored as the table
maximum `7`. -/
theorem partial_failure_nonblocking_witness :
    (extract_data_to_s3 pageFailEnv 0).page_params
        = (List.range (pageCount pageFailEnv)).map
            (fun i => (i * pageFailEnv.batch_size, pageFailEnv.batch_size)) ∧
    (extract_data_to_s3 pageFailEnv 0).upload_keys.length = pageCount pageFailEnv ∧
    (extract_data_to_s3 pageFailEnv 0).upload_keys[0]? = some none ∧
    (extract_data_to_s3 pageFailEnv 0).stored.latest_processed_time
      = determine_end_time pageFailEnv.table :=
  partial_failure_nonblocking pageFailEnv 0 (by decide) 0 (by decide) rfl

/-- C3 (counterexample): a run with `total_count = 0` produces zero pages
and zero uploads, but its watermark is NOT left unchanged: the previously
stored timestamp `5` is overwritten with the run's `end_time` `7` by the
unconditional `update_latest_processed_time` call after the loop — refuting
"zero watermark mutation". -/
theorem skip_on_empty_counterexample :
    zeroCountEnv.total_count = 0 ∧
    (extract_data_to_s3 zeroCountEnv 0).page_params = [] ∧
    (extract_data_to_s3 zeroCountEnv 0).upload_keys = [] ∧
    zeroCountEnv.row = some { latest_processed_time := some 5 } ∧
    (extract_data_to_s3 zeroCountEnv 0).stored.latest_processed_time = some 7 :=
  ⟨rfl, rfl, rfl, rfl, rfl⟩

/-- C3 (amended): `total_count = 0` produces zero pages, zero uploads and no
local files, but `update_latest_processed_time` is still invoked: the stored
watermark becomes the run's `end_time` rather than staying unchanged. -/
theorem zero_count_no_pages_still_advances (e : Env) (ms : Int)
    (h : e.total_count = 0) :
    (extract_data_to_s3 e ms).page_params = [] ∧
    (extract_data_to_s3 e ms).upload_keys = [] ∧
    (extract_data_to_s3 e ms).files_removed = [] ∧
    (extract_data_to_s3 e ms).stored
      = update_latest_processed_time e.row (determine_end_time e.table) := by
  have hoff : rangeStep 0 e.total_count e.batch_size = [] := by
    rw [h]
    rfl
  refine ⟨?_, ?_, ?_, extract_stored e ms⟩
  · show (rangeStep 0 e.total_count e.batch_size).map _ = []
    rw [hoff]
    rfl
  · show ((rangeStep 0 e.total_count e.batch_size).enum.map _).map _ = []
    rw [hoff]
    rfl
  · show ((rangeStep 0 e.total_count e.batch_size).enum.map _).map _ = []
    rw [hoff]
    rfl

/-- Witness for the amended C3 at `zeroCountEnv`. -/
theorem zero_count_no_pages_still_advances_witness :
    zeroCountEnv.total_count = 0 ∧
    ((extract_data_to_s3 zeroCountEnv 0).page_params = [] ∧
     (extract_data_to_s3 zeroCountEnv 0).upload_keys = [] ∧
     (extract_data_to_s3 zeroCountEnv 0).files_removed = [] ∧
     (extract_data_to_s3 zeroCountEnv 0).stored
       = update_latest_processed_time zeroCountEnv.row
           (determine_end_time zeroCountEnv.table)) :=
  ⟨rfl, zero_count_no_pages_still_advances zeroCountEnv 0 rfl⟩

/-- C2 (code bug): when the `MAX` query yields no end time (`None`, here
from an empty source table), `extract_data_to_s3` contains no skip branch:
it proceeds to the unconditional `update_latest_processed_time` call and
stores a null watermark, erasing the previously stored timestamp `5` —
instead of exiting without touching the watermark as the spec requires. -/
theorem no_data_run_stores_null :
    determine_end_time emptyTableEnv.table = none ∧
    emptyTableEnv.row = some { latest_processed_time := some 5 } ∧
    (extract_data_to_s3 emptyTableEnv 0).stored.latest_processed_time = none :=
  ⟨rfl, rfl, rfl⟩

/-- C1 (counterexample): the unconditional monotonicity claim is false of
the code: `update_latest_processed_time` overwrites the stored timestamp
with the run's `MAX` unconditionally, so in the concrete two-run sequence
`shrinkingEnv` (whose source table loses its rows between runs) run 0
stores `some 5` and run 1 stores `none` — a later run stores a less-defined
value than one already stored (`watermarkLe (some 5) none = false`). This
is the same rewind path as the C2 no-data bug. -/
theorem watermark_monotone_counterexample :
    (extract_data_to_s3 (shrinkingEnv 0) 0).stored.latest_processed_time = some 5 ∧
    (extract_data_to_s3 (shrinkingEnv 1) 0).stored.latest_processed_time = none ∧
    watermarkLe ((extract_data_to_s3 (shrinkingEnv 0) 0).stored.latest_processed_time)
        ((extract_data_to_s3 (shrinkingEnv 1) 0).stored.latest_processed_time) = false :=
  ⟨rfl, rfl, rfl⟩

/-- C1 (amended): over a sequence of runs for the same
(provider, year, month) key whose source table only accumulates rows
(run `n`'s table is contained in run `n + 1`'s), the timestamp stored by
`update_latest_processed_time` is non-decreasing: a later run never stores
an earlier or less-defined value than an earlier run, because each run
stores the `MAX` of the table and that maximum is monotone under table
growth. Without the append-only assumption the unconditional overwrite can
rewind the watermark (see the counterexample above). -/
theorem watermark_monotone_over_runs (e : Nat → Env) (ms : Nat → Int)
    (hgrow : ∀ n, (e n).table ⊆ (e (n + 1)).table) (i j : Nat) (hij : i ≤ j) :
    watermarkLe ((extract_data_to_s3 (e i) (ms i)).stored.latest_processed_time)
        ((extract_data_to_s3 (e j) (ms j)).stored.latest_processed_time) = true := by
  have hsub : (e i).table ⊆ (e j).table := by
    induction j, hij using Nat.le_induction with
    | base => exact fun x hx => hx
    | succ n hn ih => exact fun x hx => hgrow n (ih hx)
  rw [extract_stored_time, extract_stored_time]
  exact sqlMax_mono (e i).table (e j).table hsub

/-- Witness for C1 over the growing table sequence `growingEnv`
(run `n` sees timestamps `0..n-1`), comparing runs 1 and 3. -/
theorem watermark_monotone_over_runs_witness :
    (∀ n, (growingEnv n).table ⊆ (growingEnv (n + 1)).table) ∧
    watermarkLe ((extract_data_to_s3 (growingEnv 1) 0).stored.latest_processed_time)
        ((extract_data_to_s3 (growingEnv 3) 0).stored.latest_processed_time) = true :=
  ⟨fun n => List.map_subset _ (List.range_subset.mpr (Nat.le_succ n)),
   watermark_monotone_over_runs growingEnv (fun _ => 0)
     (fun n => List.map_subset _ (List.range_subset.mpr (Nat.le_succ n)))
     1 3 (by decide)⟩

end Subs
